import Mathlib

/-!
Verification of `cascii-core-view` against its natural-language specification.

The Rust sources are shallowly embedded:
* machine integers (`u32`, `usize`, `u8`) are modelled as `ℕ` (all arithmetic
  in the verified operations stays far below the overflow bounds);
* `f64` values (playback range bounds, font sizes) are modelled as `ℚ`;
  Rust's `f64::round` (round half away from zero) agrees with Mathlib's
  `round` (round half up) on the non-negative values that occur here, and
  `as u32` / `as usize` on a non-negative float is `Int.toNat ∘ Int.floor`;
* fallible operations return `Except`;
* byte buffers are `List ℕ` indexed with `List.getD`.
-/

namespace Cascii

/-! ## Animation model (src/animation.rs) -/

/-- Loop mode for animation playback (`LoopMode` in animation.rs). -/
inductive LoopMode where
  | Once
  | Loop
deriving DecidableEq

/-- Current state of the animation (`AnimationState` in animation.rs). -/
inductive AnimationState where
  | Stopped
  | Playing
  | Finished
deriving DecidableEq

/-- The `AnimationController` struct from animation.rs.  `range_start` and
`range_end` are `f64` in Rust, modelled as `ℚ`. -/
structure AnimationController where
  current_frame : ℕ
  frame_count : ℕ
  fps : ℕ
  state : AnimationState
  loop_mode : LoopMode
  range_start : ℚ
  range_end : ℚ
deriving DecidableEq

namespace AnimationController

/-- `AnimationController::new(fps)`. -/
def new (fps : ℕ) : AnimationController :=
  { current_frame := 0
    frame_count := 0
    fps := max fps 1
    state := AnimationState.Stopped
    loop_mode := LoopMode.Loop
    range_start := 0
    range_end := 1 }

/-- `set_frame_count`: stores the count and clamps `current_frame` down. -/
def set_frame_count (c : AnimationController) (count : ℕ) : AnimationController :=
  let c := { c with frame_count := count }
  if count ≤ c.current_frame ∧ 0 < count then
    { c with current_frame := count - 1 }
  else c

/-- `set_fps`: clamps to a minimum of 1. -/
def set_fps (c : AnimationController) (fps : ℕ) : AnimationController :=
  { c with fps := max fps 1 }

/-- `interval_ms()` = `(1000.0 / fps as f64).max(1.0) as u32`.  The cast of a
non-negative `f64` to `u32` truncates, i.e. takes the floor. -/
def interval_ms (c : AnimationController) : ℕ :=
  ⌊max ((1000 : ℚ) / (c.fps : ℚ)) 1⌋.toNat

/-- `set_loop_mode`: switching to `Loop` while `Finished` re-arms playback. -/
def set_loop_mode (c : AnimationController) (mode : LoopMode) : AnimationController :=
  let c := { c with loop_mode := mode }
  if mode = LoopMode.Loop ∧ c.state = AnimationState.Finished then
    { c with state := AnimationState.Stopped }
  else c

/-- Rust `f64::clamp(lo, hi)` = `x.max(lo).min(hi)`. -/
def fclamp (x lo hi : ℚ) : ℚ := min (max x lo) hi

/-- `range_frames()`: maps the normalized range onto frame indices. -/
def range_frames (c : AnimationController) : ℕ × ℕ :=
  if c.frame_count = 0 then (0, 0)
  else
    let max_idx : ℚ := ((c.frame_count - 1 : ℕ) : ℚ)
    ((round (c.range_start * max_idx)).toNat, (round (c.range_end * max_idx)).toNat)

/-- `set_range(start, end)`: clamps both bounds, keeps a minimum span of 0.01
above `range_start`, then re-clamps `current_frame` into the new range. -/
def set_range (c : AnimationController) (s e : ℚ) : AnimationController :=
  let c := { c with range_start := fclamp s 0 1 }
  let c := { c with range_end := max (fclamp e 0 1) (c.range_start + 1/100) }
  let se := c.range_frames
  if c.current_frame < se.1 ∨ se.2 < c.current_frame then
    { c with current_frame := se.1 }
  else c

/-- `range_frame_count()`. -/
def range_frame_count (c : AnimationController) : ℕ :=
  (c.range_frames).2 - (c.range_frames).1 + 1

/-- `play()`. -/
def play (c : AnimationController) : AnimationController :=
  if 0 < c.frame_count ∧ c.state ≠ AnimationState.Finished then
    { c with state := AnimationState.Playing }
  else c

/-- `pause()`. -/
def pause (c : AnimationController) : AnimationController :=
  if c.state = AnimationState.Playing then
    { c with state := AnimationState.Stopped }
  else c

/-- `toggle()`. -/
def toggle (c : AnimationController) : AnimationController :=
  match c.state with
  | AnimationState.Playing => c.pause
  | AnimationState.Stopped => c.play
  | AnimationState.Finished =>
      { c with current_frame := (c.range_frames).1, state := AnimationState.Playing }

/-- `stop()`. -/
def stop (c : AnimationController) : AnimationController :=
  let c := { c with state := AnimationState.Stopped }
  { c with current_frame := (c.range_frames).1 }

/-- `set_current_frame(frame)`. -/
def set_current_frame (c : AnimationController) (frame : ℕ) : AnimationController :=
  if c.frame_count = 0 then { c with current_frame := 0 }
  else
    let se := c.range_frames
    { c with current_frame := min (max frame se.1) se.2 }

/-- `seek(percentage)`: clamps to `[0,1]` and maps linearly onto the range. -/
def seek (c : AnimationController) (p : ℚ) : AnimationController :=
  if c.frame_count = 0 then c
  else
    let se := c.range_frames
    let range_len : ℚ := ((se.2 - se.1 : ℕ) : ℚ)
    let target := (round ((se.1 : ℚ) + fclamp p 0 1 * range_len)).toNat
    { c with current_frame := min (max target se.1) se.2 }

/-- `position()`. -/
def position (c : AnimationController) : ℚ :=
  let se := c.range_frames
  if se.2 ≤ se.1 then 0
  else ((c.current_frame : ℚ) - (se.1 : ℚ)) / ((se.2 - se.1 : ℕ) : ℚ)

/-- `tick()`: returns the updated controller together with the `bool` the Rust
method returns. -/
def tick (c : AnimationController) : AnimationController × Bool :=
  if c.state ≠ AnimationState.Playing ∨ c.frame_count = 0 then (c, false)
  else
    let se := c.range_frames
    if c.current_frame < se.1 then ({ c with current_frame := se.1 }, true)
    else if se.2 ≤ c.current_frame then
      match c.loop_mode with
      | LoopMode.Loop => ({ c with current_frame := se.1 }, true)
      | LoopMode.Once => ({ c with state := AnimationState.Finished }, false)
    else ({ c with current_frame := c.current_frame + 1 }, true)

/-- `step_forward()`. -/
def step_forward (c : AnimationController) : AnimationController :=
  if c.frame_count = 0 then c
  else
    let c := c.pause
    let se := c.range_frames
    if se.2 ≤ c.current_frame then { c with current_frame := se.1 }
    else { c with current_frame := c.current_frame + 1 }

/-- `step_backward()`. -/
def step_backward (c : AnimationController) : AnimationController :=
  if c.frame_count = 0 then c
  else
    let c := c.pause
    let se := c.range_frames
    if c.current_frame ≤ se.1 then { c with current_frame := se.2 }
    else { c with current_frame := c.current_frame - 1 }

/-- `reset()`. -/
def reset (c : AnimationController) : AnimationController :=
  { c with current_frame := 0, state := AnimationState.Stopped,
           range_start := 0, range_end := 1 }

/-- Iterated `tick`, discarding the returned booleans. -/
def tickN (c : AnimationController) : ℕ → AnimationController
  | 0 => c
  | n + 1 => ((tickN c n).tick).1

end AnimationController

end Cascii

namespace Cascii

/-- Controllers reachable from the constructor by any sequence of public
mutating operations of `AnimationController`. -/
inductive Reachable : AnimationController → Prop
  | new (fps : ℕ) : Reachable (AnimationController.new fps)
  | set_frame_count {c} (n : ℕ) : Reachable c → Reachable (c.set_frame_count n)
  | set_fps {c} (f : ℕ) : Reachable c → Reachable (c.set_fps f)
  | set_loop_mode {c} (m : LoopMode) : Reachable c → Reachable (c.set_loop_mode m)
  | set_range {c} (s e : ℚ) : Reachable c → Reachable (c.set_range s e)
  | play {c} : Reachable c → Reachable c.play
  | pause {c} : Reachable c → Reachable c.pause
  | toggle {c} : Reachable c → Reachable c.toggle
  | stop {c} : Reachable c → Reachable c.stop
  | set_current_frame {c} (n : ℕ) : Reachable c → Reachable (c.set_current_frame n)
  | seek {c} (p : ℚ) : Reachable c → Reachable (c.seek p)
  | tick {c} : Reachable c → Reachable (c.tick).1
  | step_forward {c} : Reachable c → Reachable c.step_forward
  | step_backward {c} : Reachable c → Reachable c.step_backward
  | reset {c} : Reachable c → Reachable c.reset

/-- The behavior of manual stepping, as the spec describes it apart from the
forced-`Stopped` part: stepping pauses a `Playing` controller (leaving other
states alone) and moves one frame with wraparound at the range boundaries. -/
def step_spec (c : AnimationController) : Prop :=
  (c.step_forward.state
      = if c.state = AnimationState.Playing then AnimationState.Stopped else c.state)
  ∧ (c.step_backward.state
      = if c.state = AnimationState.Playing then AnimationState.Stopped else c.state)
  ∧ ((c.range_frames).2 ≤ c.current_frame →
      c.step_forward.current_frame = (c.range_frames).1)
  ∧ (c.current_frame < (c.range_frames).2 →
      c.step_forward.current_frame = c.current_frame + 1)
  ∧ (c.current_frame ≤ (c.range_frames).1 →
      c.step_backward.current_frame = (c.range_frames).2)
  ∧ ((c.range_frames).1 < c.current_frame →
      c.step_backward.current_frame = c.current_frame - 1)

/-! ## Data model (src/data.rs) and binary parsing (src/parser.rs) -/

/-- The `CFrameData` struct from data.rs.  Bytes are `ℕ` values (below 256 for
buffers coming from real files). -/
structure CFrameData where
  width : ℕ
  height : ℕ
  chars : List ℕ
  rgb : List ℕ
deriving DecidableEq

/-- The `ParseError` enum from parser.rs. -/
inductive ParseError where
  | FileTooSmall (expected actual : ℕ)
  | SizeMismatch (expected actual : ℕ)
  | InvalidDimensions (width height : ℕ)
deriving DecidableEq

/-- `u32::from_le_bytes` applied to the four bytes at offset `off`. -/
def leU32 (data : List ℕ) (off : ℕ) : ℕ :=
  data.getD off 0 + 256 * data.getD (off + 1) 0 + 65536 * data.getD (off + 2) 0
    + 16777216 * data.getD (off + 3) 0

/-- `parse_cframe` from parser.rs.  The per-pixel loop pushing one char byte
and three color bytes per iteration is rendered as a map and a concatenation
over the pixel indices.  Here `usize` arithmetic is idealized as exact
naturals; `parse_cframe_usize` below makes the target's wrapping explicit,
and the two agree whenever `8 + width*height*4` fits in `usize`. -/
def parse_cframe (data : List ℕ) : Except ParseError CFrameData :=
  if data.length < 8 then
    Except.error (ParseError.FileTooSmall 8 data.length)
  else
    let width := leU32 data 0
    let height := leU32 data 4
    if width = 0 ∨ height = 0 then
      Except.error (ParseError.InvalidDimensions width height)
    else
      let pixel_count := width * height
      let expected_size := 8 + pixel_count * 4
      if data.length < expected_size then
        Except.error (ParseError.SizeMismatch expected_size data.length)
      else
        Except.ok
          { width := width
            height := height
            chars := (List.range pixel_count).map (fun i => data.getD (8 + i * 4) 0)
            rgb := (List.range pixel_count).flatMap (fun i =>
              [data.getD (8 + i * 4 + 1) 0, data.getD (8 + i * 4 + 2) 0,
                data.getD (8 + i * 4 + 3) 0]) }

instance {e a : Type} [DecidableEq e] [DecidableEq a] : DecidableEq (Except e a) :=
  fun x y =>
    match x, y with
    | Except.error u, Except.error v => decidable_of_iff (u = v) (by simp)
    | Except.error _, Except.ok _ => isFalse (fun hc => Except.noConfusion hc)
    | Except.ok _, Except.error _ => isFalse (fun hc => Except.noConfusion hc)
    | Except.ok u, Except.ok v => decidable_of_iff (u = v) (by simp)

/-- `parse_cframe` with the machine arithmetic of a `bits`-wide `usize`
target made explicit: in the source, `width as usize * height as usize`,
`pixel_count * 4` and `HEADER_SIZE + ...` are `usize` computations that wrap
modulo `2^bits` in release builds (debug builds panic instead of wrapping);
`bits` is 64 on native targets and 32 on wasm32.  In the region where the
spurious size check passes despite wrapping, the source's pixel loop indexes
out of bounds (a panic); the total model reads those positions with
`List.getD`, but no theorem below relies on that region. -/
def parse_cframe_usize (bits : ℕ) (data : List ℕ) : Except ParseError CFrameData :=
  if data.length < 8 then
    Except.error (ParseError.FileTooSmall 8 data.length)
  else
    let width := leU32 data 0
    let height := leU32 data 4
    if width = 0 ∨ height = 0 then
      Except.error (ParseError.InvalidDimensions width height)
    else
      let pixel_count := width * height % 2 ^ bits
      let expected_size := (8 + pixel_count * 4 % 2 ^ bits) % 2 ^ bits
      if data.length < expected_size then
        Except.error (ParseError.SizeMismatch expected_size data.length)
      else
        Except.ok
          { width := width
            height := height
            chars := (List.range pixel_count).map (fun i => data.getD (8 + i * 4) 0)
            rgb := (List.range pixel_count).flatMap (fun i =>
              [data.getD (8 + i * 4 + 1) 0, data.getD (8 + i * 4 + 2) 0,
                data.getD (8 + i * 4 + 3) 0]) }

/-- The semantics of Rust `str::parse::<u32>` on a string with no leading
sign: `none` on an empty string, on any non-digit character, and on overflow
past `u32::MAX`. -/
def parseDigits (s : List Char) : Option ℕ :=
  if s = [] then none
  else if s.all Char.isDigit then
    let v := s.foldl (fun acc c => acc * 10 + (c.toNat - 48)) 0
    if v < 4294967296 then some v else none
  else none

/-- Rust `str::parse::<u32>`: also accepts one leading `+`. -/
def parseU32 : List Char → Option ℕ
  | '+' :: rest => parseDigits rest
  | s => parseDigits s

namespace FrameFile

/-- The filename tag `"frame_"` stripped by `extract_index`. -/
def frameTag : List Char := ['f', 'r', 'a', 'm', 'e', '_']

/-- `FrameFile::extract_index` from data.rs, acting on the filename stem. -/
def extract_index (stem : List Char) (fallback : ℕ) : ℕ :=
  if stem.take 6 = frameTag then
    (parseU32 (stem.drop 6)).getD 0
  else
    (parseU32 (stem.filter Char.isDigit)).getD fallback

end FrameFile

/-! ## Loader model (src/loader.rs) -/

/-- `LoadingPhase` from loader.rs. -/
inductive LoadingPhase where
  | Idle
  | LoadingText
  | LoadingColors
  | Complete
deriving DecidableEq

/-- `LoadingProgress` from loader.rs. -/
structure LoadingProgress where
  text_loaded : ℕ
  text_total : ℕ
  color_loaded : ℕ
  color_total : ℕ
deriving DecidableEq

/-- `LoadingProgress::color_complete`. -/
def LoadingProgress.color_complete (p : LoadingProgress) : Bool :=
  decide (0 < p.color_total) && decide (p.color_total ≤ p.color_loaded)

/-- `Frame` from data.rs. -/
structure Frame where
  content : String
  cframe : Option CFrameData
deriving DecidableEq

/-- `FrameLoaderState` from loader.rs. -/
structure FrameLoaderState where
  phase : LoadingPhase
  progress : LoadingProgress
  frames : List Frame
  frame_paths : List String
  error : Option String
deriving DecidableEq

namespace FrameLoaderState

/-- `FrameLoaderState::set_frame_color`: update the frame in bounds, always
bump the counter, and complete the phase when all colors are accounted for. -/
def set_frame_color (st : FrameLoaderState) (index : ℕ) (cf : CFrameData) :
    FrameLoaderState :=
  let frames :=
    if h : index < st.frames.length then
      st.frames.set index { st.frames.get ⟨index, h⟩ with cframe := some cf }
    else st.frames
  let progress := { st.progress with color_loaded := st.progress.color_loaded + 1 }
  let phase := if progress.color_complete then LoadingPhase.Complete else st.phase
  { st with frames := frames, progress := progress, phase := phase }

/-- `FrameLoaderState::skip_frame_color`. -/
def skip_frame_color (st : FrameLoaderState) : FrameLoaderState :=
  let progress := { st.progress with color_loaded := st.progress.color_loaded + 1 }
  let phase := if progress.color_complete then LoadingPhase.Complete else st.phase
  { st with progress := progress, phase := phase }

end FrameLoaderState

/-- One provider response in phase 2: `read_cframe_bytes` either fails with a
message or yields optional raw bytes. -/
abbrev ColorRead := Except String (Option (List ℕ))

/-- The `(index, total, decoded)` triple passed to the `on_frame` callback. -/
abbrev FrameEvent := ℕ × ℕ × Option CFrameData

/-- The loop body of `load_color_frames`, accumulating the `on_frame` calls
made so far; a provider `Err` stops the loop and is returned (the `?`
operator), while a parse failure only downgrades the frame to `none`. -/
def load_color_go (total : ℕ) : ℕ → List ColorRead → List FrameEvent × Except String Unit
  | _, [] => ([], Except.ok ())
  | _, Except.error e :: _ => ([], Except.error e)
  | i, Except.ok ob :: rest =>
      let cframe := ob.bind (fun bytes => (parse_cframe bytes).toOption)
      let r := load_color_go total (i + 1) rest
      ((i, total, cframe) :: r.1, r.2)

/-- `load_color_frames` from loader.rs, as a function of the ordered provider
responses; returns the sequence of `on_frame` calls and the overall result. -/
def load_color_frames (reads : List ColorRead) : List FrameEvent × Except String Unit :=
  load_color_go reads.length 0 reads

/-! ## Render model (src/render.rs with sizing from src/sizing.rs) -/

/-- `FontSizing` from sizing.rs (`f64` fields modelled as `ℚ`). -/
structure FontSizing where
  char_width_ratio : ℚ
  line_height_ratio : ℚ
  min_font_size : ℚ
  max_font_size : ℚ
  padding : ℚ
deriving DecidableEq

/-- `FontSizing::default()`: ratios 0.6 and 1.11. -/
def FontSizing.default : FontSizing :=
  { char_width_ratio := 3/5
    line_height_ratio := 111/100
    min_font_size := 1
    max_font_size := 50
    padding := 20 }

/-- `FontSizing::char_width`. -/
def FontSizing.char_width (s : FontSizing) (font_size : ℚ) : ℚ :=
  font_size * s.char_width_ratio

/-- `FontSizing::line_height`. -/
def FontSizing.line_height (s : FontSizing) (font_size : ℚ) : ℚ :=
  font_size * s.line_height_ratio

/-- `RenderConfig` from render.rs. -/
structure RenderConfig where
  font_size : ℚ
  sizing : FontSizing
deriving DecidableEq

/-- `RenderConfig::new`. -/
def RenderConfig.new (font_size : ℚ) : RenderConfig :=
  { font_size := font_size, sizing := FontSizing.default }

/-- `RenderConfig::char_width`. -/
def RenderConfig.char_width (c : RenderConfig) : ℚ := c.sizing.char_width c.font_size

/-- `RenderConfig::line_height`. -/
def RenderConfig.line_height (c : RenderConfig) : ℚ := c.sizing.line_height c.font_size

/-- `TextBatch` from render.rs; `text` is the list of character bytes pushed. -/
structure TextBatch where
  text : List ℕ
  x : ℚ
  y : ℚ
  color : ℕ × ℕ × ℕ
deriving DecidableEq

/-- `RenderResult` from render.rs. -/
structure RenderResult where
  width : ℚ
  height : ℚ
  batches : List TextBatch
deriving DecidableEq

/-- The inner `while` loop of `render_cframe`: starting at `col`, collect the
characters of consecutive cells whose color is exactly `(r, g, b)` and that
are neither spaces nor all-dark; the loop leaves `col` at the start column
plus one plus the number of characters collected. -/
def collectRun (cf : CFrameData) (row r g b : ℕ) (col : ℕ) : List ℕ :=
  if h : col < cf.width then
    let idx := row * cf.width + col
    let ch := cf.chars.getD idx 0
    let nr := cf.rgb.getD (idx * 3) 0
    let ng := cf.rgb.getD (idx * 3 + 1) 0
    let nb := cf.rgb.getD (idx * 3 + 2) 0
    if nr = r ∧ ng = g ∧ nb = b ∧ ch ≠ 32 ∧ ¬(nr < 5 ∧ ng < 5 ∧ nb < 5) then
      ch :: collectRun cf row r g b (col + 1)
    else []
  else []
termination_by cf.width - col
decreasing_by omega

/-- The outer `while` loop of `render_cframe` over one row. -/
def scanRow (cf : CFrameData) (cw lh : ℚ) (row : ℕ) (col : ℕ) : List TextBatch :=
  if h : col < cf.width then
    let idx := row * cf.width + col
    let ch := cf.chars.getD idx 0
    let r := cf.rgb.getD (idx * 3) 0
    let g := cf.rgb.getD (idx * 3 + 1) 0
    let b := cf.rgb.getD (idx * 3 + 2) 0
    if ch = 32 ∨ (r < 5 ∧ g < 5 ∧ b < 5) then
      scanRow cf cw lh row (col + 1)
    else
      let run := collectRun cf row r g b (col + 1)
      { text := ch :: run, x := (col : ℚ) * cw, y := (row : ℚ) * lh, color := (r, g, b) }
        :: scanRow cf cw lh row (col + 1 + run.length)
  else []
termination_by cf.width - col
decreasing_by all_goals omega

/-- `render_cframe` from render.rs. -/
def render_cframe (cf : CFrameData) (config : RenderConfig) : RenderResult :=
  { width := (cf.width : ℚ) * config.char_width
    height := (cf.height : ℚ) * config.line_height
    batches := (List.range cf.height).flatMap
      (fun row => scanRow cf config.char_width config.line_height row 0) }

/-- One cell of a color frame, as the spec describes it: a character and an
RGB triple. -/
structure Cell where
  ch : ℕ
  rgb : ℕ × ℕ × ℕ
deriving DecidableEq

/-- The cell of `cf` at `(row, col)`. -/
def cellOf (cf : CFrameData) (row col : ℕ) : Cell :=
  { ch := cf.chars.getD (row * cf.width + col) 0
    rgb := (cf.rgb.getD ((row * cf.width + col) * 3) 0,
      cf.rgb.getD ((row * cf.width + col) * 3 + 1) 0,
      cf.rgb.getD ((row * cf.width + col) * 3 + 2) 0) }

/-- The row `row` of `cf` as a list of cells, left to right. -/
def rowCells (cf : CFrameData) (row : ℕ) : List Cell :=
  (List.range cf.width).map (cellOf cf row)

/-- Skip-worthiness per the spec: the character is the space byte or all three
channels are below the darkness threshold 5. -/
def skipCell (c : Cell) : Bool :=
  decide (c.ch = 32) || (decide (c.rgb.1 < 5) && decide (c.rgb.2.1 < 5)
    && decide (c.rgb.2.2 < 5))

/-- Specification of the per-row batching, written from the claim: skip
skip-worthy cells; at the first non-skip cell open a batch, extend it
rightward exactly while each subsequent cell has the identical RGB triple and
is itself not skip-worthy, and emit it at `x = startCol * charWidth`,
`y = row * lineHeight` with that color. -/
def specRow (cw lh : ℚ) (row : ℕ) : List Cell → ℕ → List TextBatch
  | [], _ => []
  | c :: rest, col =>
    if skipCell c then specRow cw lh row rest (col + 1)
    else
      let run := rest.takeWhile (fun d => decide (d.rgb = c.rgb) && !skipCell d)
      { text := c.ch :: run.map Cell.ch, x := (col : ℚ) * cw, y := (row : ℚ) * lh,
        color := c.rgb }
        :: specRow cw lh row (rest.drop run.length) (col + 1 + run.length)
termination_by cells _ => cells.length
decreasing_by all_goals (simp [List.length_drop]; try omega)

/-- The whole-frame render result as the spec describes it: rows processed
independently top to bottom, so batches never span rows. -/
def render_spec (cf : CFrameData) (config : RenderConfig) : RenderResult :=
  { width := (cf.width : ℚ) * config.char_width
    height := (cf.height : ℚ) * config.line_height
    batches := (List.range cf.height).flatMap
      (fun row => specRow config.char_width config.line_height row (rowCells cf row) 0) }

/-- The example buffer from the spec: width 2, height 1, pixels
`('A', 255, 0, 0)` and `('B', 0, 255, 0)`. -/
def exampleBytes : List ℕ :=
  [2, 0, 0, 0, 1, 0, 0, 0, 65, 255, 0, 0, 66, 0, 255, 0]

end Cascii

/-! ## Supporting lemmas -/

namespace Cascii

namespace AnimationController

lemma range_frames_full (cf n fps : ℕ) (st : AnimationState) (lm : LoopMode) (hn : n ≠ 0) :
    range_frames ⟨cf, n, fps, st, lm, 0, 1⟩ = (0, n - 1) := by
  simp [range_frames, hn]

lemma set_frame_count_ranges (c : AnimationController) (n : ℕ) :
    (c.set_frame_count n).range_start = c.range_start
    ∧ (c.set_frame_count n).range_end = c.range_end := by
  simp only [set_frame_count]; split <;> simp

lemma play_ranges (c : AnimationController) :
    c.play.range_start = c.range_start ∧ c.play.range_end = c.range_end := by
  simp only [play]; split <;> simp

lemma pause_ranges (c : AnimationController) :
    c.pause.range_start = c.range_start ∧ c.pause.range_end = c.range_end := by
  simp only [pause]; split <;> simp

lemma set_loop_mode_ranges (c : AnimationController) (m : LoopMode) :
    (c.set_loop_mode m).range_start = c.range_start
    ∧ (c.set_loop_mode m).range_end = c.range_end := by
  simp only [set_loop_mode]; split <;> simp

lemma toggle_ranges (c : AnimationController) :
    c.toggle.range_start = c.range_start ∧ c.toggle.range_end = c.range_end := by
  cases hst : c.state <;>
    simp only [toggle, hst, play, pause] <;> first | (split <;> simp) | simp

lemma set_current_frame_ranges (c : AnimationController) (n : ℕ) :
    (c.set_current_frame n).range_start = c.range_start
    ∧ (c.set_current_frame n).range_end = c.range_end := by
  simp only [set_current_frame]; split <;> simp

lemma seek_ranges (c : AnimationController) (p : ℚ) :
    (c.seek p).range_start = c.range_start ∧ (c.seek p).range_end = c.range_end := by
  simp only [seek]; split <;> simp

lemma tick_ranges (c : AnimationController) :
    (c.tick).1.range_start = c.range_start ∧ (c.tick).1.range_end = c.range_end := by
  cases hlm : c.loop_mode <;> simp only [tick, hlm] <;> split_ifs <;> simp

lemma step_forward_ranges (c : AnimationController) :
    c.step_forward.range_start = c.range_start
    ∧ c.step_forward.range_end = c.range_end := by
  simp only [step_forward, pause]; split_ifs <;> simp

lemma step_backward_ranges (c : AnimationController) :
    c.step_backward.range_start = c.range_start
    ∧ c.step_backward.range_end = c.range_end := by
  simp only [step_backward, pause]; split_ifs <;> simp

lemma pause_fields (c : AnimationController) :
    c.pause.range_frames = c.range_frames ∧ c.pause.current_frame = c.current_frame
    ∧ c.pause.frame_count = c.frame_count := by
  simp only [pause]; split <;> simp [range_frames]

lemma set_range_ranges (c : AnimationController) (s e : ℚ) :
    (c.set_range s e).range_start = fclamp s 0 1
    ∧ (c.set_range s e).range_end = max (fclamp e 0 1) (fclamp s 0 1 + 1/100) := by
  simp only [set_range]; split <;> simp

end AnimationController

end Cascii

/-! ## Claims about the animation controller -/

namespace Cascii
open AnimationController

/-- C1: `tick()` is a no-op returning `false` unless the state is `Playing` and
`frame_count > 0`; when playing, a `current_frame` below the computed range
start snaps to the range start (returning `true`); at or past the range end it
wraps to the range start under `Loop` (returning `true`) or finishes under
`Once` (returning `false`); otherwise it increments by one (returning `true`).
With `frame_count = 5`, `Once` mode, full range, starting from `Stopped` then
`play()`, five ticks land on `current_frame = 4` with state `Finished`, and a
sixth tick changes nothing and returns `false`. -/
theorem C1_tick_spec :
    (∀ c : AnimationController,
      (¬(c.state = AnimationState.Playing ∧ 0 < c.frame_count) → c.tick = (c, false))
      ∧ (c.state = AnimationState.Playing → 0 < c.frame_count →
          ((c.current_frame < (c.range_frames).1 →
              c.tick = ({ c with current_frame := (c.range_frames).1 }, true))
          ∧ ((c.range_frames).1 ≤ c.current_frame → (c.range_frames).2 ≤ c.current_frame →
              (c.loop_mode = LoopMode.Loop →
                c.tick = ({ c with current_frame := (c.range_frames).1 }, true))
              ∧ (c.loop_mode = LoopMode.Once →
                c.tick = ({ c with state := AnimationState.Finished }, false)))
          ∧ ((c.range_frames).1 ≤ c.current_frame → c.current_frame < (c.range_frames).2 →
              c.tick = ({ c with current_frame := c.current_frame + 1 }, true)))))
    ∧ ((tickN ((((AnimationController.new 24).set_frame_count 5).set_loop_mode
          LoopMode.Once).play) 5).current_frame = 4
      ∧ (tickN ((((AnimationController.new 24).set_frame_count 5).set_loop_mode
          LoopMode.Once).play) 5).state = AnimationState.Finished
      ∧ (tickN ((((AnimationController.new 24).set_frame_count 5).set_loop_mode
          LoopMode.Once).play) 5).tick
          = (tickN ((((AnimationController.new 24).set_frame_count 5).set_loop_mode
              LoopMode.Once).play) 5, false)) := by
  constructor
  · intro c
    by_cases hst : c.state = AnimationState.Playing
    · by_cases hfc : c.frame_count = 0
      · simp [tick, hst, hfc]
      · have hcond : ¬(c.state ≠ AnimationState.Playing ∨ c.frame_count = 0) := by
          simp [hst, hfc]
        refine ⟨fun h => absurd ⟨hst, Nat.pos_of_ne_zero hfc⟩ h, fun _ _ => ?_⟩
        refine ⟨fun hlt => ?_, fun hge hend => ⟨fun hl => ?_, fun ho => ?_⟩,
          fun hge hmid => ?_⟩
        · simp [tick, hcond, hlt]
        · have hnlt : ¬(c.current_frame < (c.range_frames).1) := by omega
          simp [tick, hcond, hnlt, hend, hl]
        · have hnlt : ¬(c.current_frame < (c.range_frames).1) := by omega
          simp [tick, hcond, hnlt, hend, ho]
        · have hnlt : ¬(c.current_frame < (c.range_frames).1) := by omega
          have hnend : ¬((c.range_frames).2 ≤ c.current_frame) := by omega
          simp [tick, hcond, hnlt, hnend]
    · refine ⟨fun _ => by simp [tick, hst], fun h => absurd h hst⟩
  · have hc0 : ((((AnimationController.new 24).set_frame_count 5).set_loop_mode
        LoopMode.Once).play)
        = ⟨0, 5, 24, AnimationState.Playing, LoopMode.Once, 0, 1⟩ := by
      simp [AnimationController.new, set_frame_count, set_loop_mode, play]
    rw [hc0]
    have h5 : tickN ⟨0, 5, 24, AnimationState.Playing, LoopMode.Once, 0, 1⟩ 5
        = ⟨4, 5, 24, AnimationState.Finished, LoopMode.Once, 0, 1⟩ := by
      simp [tickN, tick, range_frames_full]
    rw [h5]
    refine ⟨rfl, rfl, ?_⟩
    simp [tick]

/-- C4 counterexample: the claimed invariant `range_end ≤ 1.0` fails on a
reachable controller: after `set_range(1.0, 1.0)` the stored `range_end` is
`1.01 > 1`. -/
theorem C4_range_counterexample :
    Reachable ((AnimationController.new 24).set_range 1 1)
    ∧ ((AnimationController.new 24).set_range 1 1).range_end = 101/100
    ∧ ¬(((AnimationController.new 24).set_range 1 1).range_end ≤ 1) := by
  refine ⟨Reachable.set_range 1 1 (Reachable.new 24), ?_, ?_⟩ <;>
    rw [(set_range_ranges _ 1 1).2] <;> simp only [fclamp] <;> norm_num

/-- C4 amended: every reachable controller satisfies
`0 ≤ range_start ≤ 1`, `range_start ≤ range_end`, and
`range_end ≤ max 1 (range_start + 0.01) ≤ 1.01`; when `range_start > 0.99`
the minimum-span rule can push `range_end` up to `0.01` beyond `1`. -/
theorem C4_range_invariant (c : AnimationController) (h : Reachable c) :
    0 ≤ c.range_start ∧ c.range_start ≤ 1 ∧ c.range_start ≤ c.range_end
    ∧ c.range_end ≤ max 1 (c.range_start + 1/100) ∧ c.range_end ≤ 101/100 := by
  have main : 0 ≤ c.range_start ∧ c.range_start ≤ 1 ∧ c.range_start ≤ c.range_end
      ∧ c.range_end ≤ max 1 (c.range_start + 1/100) := by
    induction h with
    | new fps => norm_num [AnimationController.new]
    | set_frame_count n _ ih =>
        rw [(set_frame_count_ranges _ n).1, (set_frame_count_ranges _ n).2]; exact ih
    | set_fps f _ ih => exact ih
    | set_loop_mode m _ ih =>
        rw [(set_loop_mode_ranges _ m).1, (set_loop_mode_ranges _ m).2]; exact ih
    | set_range s e _ ih =>
        rw [(set_range_ranges _ s e).1, (set_range_ranges _ s e).2]
        simp only [fclamp]
        refine ⟨le_min (le_max_right _ _) zero_le_one, min_le_right _ _,
          le_trans (le_add_of_nonneg_right (by norm_num)) (le_max_right _ _),
          max_le (le_trans (min_le_right _ _) (le_max_left _ _)) (le_max_right _ _)⟩
    | play _ ih => rw [(play_ranges _).1, (play_ranges _).2]; exact ih
    | pause _ ih => rw [(pause_ranges _).1, (pause_ranges _).2]; exact ih
    | toggle _ ih => rw [(toggle_ranges _).1, (toggle_ranges _).2]; exact ih
    | stop _ ih => simpa [AnimationController.stop] using ih
    | set_current_frame n _ ih =>
        rw [(set_current_frame_ranges _ n).1, (set_current_frame_ranges _ n).2]; exact ih
    | seek p _ ih => rw [(seek_ranges _ p).1, (seek_ranges _ p).2]; exact ih
    | tick _ ih => rw [(tick_ranges _).1, (tick_ranges _).2]; exact ih
    | step_forward _ ih =>
        rw [(step_forward_ranges _).1, (step_forward_ranges _).2]; exact ih
    | step_backward _ ih =>
        rw [(step_backward_ranges _).1, (step_backward_ranges _).2]; exact ih
    | reset _ ih => norm_num [AnimationController.reset]
  obtain ⟨h0, h1, h2, h3⟩ := main
  exact ⟨h0, h1, h2, h3, h3.trans (max_le (by norm_num) (by linarith))⟩

/-- C4 witness: the amended invariant instantiated at the freshly constructed
controller `new 24`. -/
theorem C4_range_invariant_witness :
    0 ≤ (AnimationController.new 24).range_start
    ∧ (AnimationController.new 24).range_start ≤ 1
    ∧ (AnimationController.new 24).range_start ≤ (AnimationController.new 24).range_end
    ∧ (AnimationController.new 24).range_end
        ≤ max 1 ((AnimationController.new 24).range_start + 1/100)
    ∧ (AnimationController.new 24).range_end ≤ 101/100 :=
  C4_range_invariant (AnimationController.new 24) (Reachable.new 24)

/-- C5 counterexample: `interval_ms()` does not round to nearest — at
`fps = 24` the code yields `⌊1000/24⌋ = 41` while `max 1 (round (1000/24))`
is `42`. -/
theorem C5_interval_counterexample :
    ((AnimationController.new 24).interval_ms : ℤ)
      ≠ max 1 (round ((1000 : ℚ) / ((AnimationController.new 24).fps : ℚ))) := by
  have hfps : (AnimationController.new 24).fps = 24 := by
    simp [AnimationController.new]
  rw [interval_ms, hfps]
  rw [max_eq_left (by norm_num : (1:ℚ) ≤ 1000 / ((24:ℕ):ℚ))]
  rw [show ⌊(1000:ℚ)/((24:ℕ):ℚ)⌋ = 41 by rw [Int.floor_eq_iff]; norm_num]
  rw [show round ((1000:ℚ)/((24:ℕ):ℚ)) = 42 by rw [round_eq, Int.floor_eq_iff]; norm_num]
  decide

/-- C5 amended: for every controller with `fps ≥ 1` (which construction and
every update enforce), `interval_ms()` equals `max 1 ⌊1000 / fps⌋` — the
division is truncated, not rounded to nearest; in particular at `fps = 24`
it is `41`, in agreement with the code's own unit test. -/
theorem C5_interval_amended :
    (∀ c : AnimationController, 1 ≤ c.fps →
      (c.interval_ms : ℤ) = max 1 ⌊(1000 : ℚ) / (c.fps : ℚ)⌋)
    ∧ (AnimationController.new 24).interval_ms = 41 := by
  constructor
  · intro c hf
    have h0 : (0:ℚ) < (c.fps : ℚ) := by exact_mod_cast hf
    by_cases hle : c.fps ≤ 1000
    · have hq : (1:ℚ) ≤ 1000 / (c.fps : ℚ) := by
        rw [one_le_div h0]; exact_mod_cast hle
      have hfloor : 1 ≤ ⌊(1000:ℚ)/(c.fps : ℚ)⌋ := Int.le_floor.mpr (by exact_mod_cast hq)
      rw [interval_ms, max_eq_left hq, Int.toNat_of_nonneg (by omega), max_eq_right hfloor]
    · push_neg at hle
      have hq : (1000:ℚ)/(c.fps:ℚ) < 1 := by rw [div_lt_one h0]; exact_mod_cast hle
      have hq0 : (0:ℚ) ≤ 1000 / (c.fps:ℚ) := by positivity
      have hz : ⌊(1000:ℚ)/(c.fps:ℚ)⌋ = 0 := by
        rw [Int.floor_eq_iff]
        refine ⟨by exact_mod_cast hq0, by simpa using hq⟩
      rw [interval_ms, max_eq_right (le_of_lt hq), hz]
      simp
  · have hfps : (AnimationController.new 24).fps = 24 := by
      simp [AnimationController.new]
    rw [interval_ms, hfps]
    rw [max_eq_left (by norm_num : (1:ℚ) ≤ 1000 / ((24:ℕ):ℚ))]
    rw [show ⌊(1000:ℚ)/((24:ℕ):ℚ)⌋ = 41 by rw [Int.floor_eq_iff]; norm_num]
    rfl

/-- C6 counterexample: on a reachable controller with `frame_count > 0` that
is in the `Finished` state, `step_forward()`/`step_backward()` do NOT force
the state to `Stopped` — `pause()` only moves `Playing` to `Stopped`, so the
state stays `Finished`. -/
theorem C6_step_counterexample :
    0 < (tickN ((((AnimationController.new 24).set_frame_count 5).set_loop_mode
        LoopMode.Once).play) 5).frame_count
    ∧ (tickN ((((AnimationController.new 24).set_frame_count 5).set_loop_mode
        LoopMode.Once).play) 5).state = AnimationState.Finished
    ∧ ((tickN ((((AnimationController.new 24).set_frame_count 5).set_loop_mode
        LoopMode.Once).play) 5).step_forward).state ≠ AnimationState.Stopped
    ∧ ((tickN ((((AnimationController.new 24).set_frame_count 5).set_loop_mode
        LoopMode.Once).play) 5).step_backward).state ≠ AnimationState.Stopped := by
  have hc0 : ((((AnimationController.new 24).set_frame_count 5).set_loop_mode
      LoopMode.Once).play)
      = ⟨0, 5, 24, AnimationState.Playing, LoopMode.Once, 0, 1⟩ := by
    simp [AnimationController.new, set_frame_count, set_loop_mode, play]
  rw [hc0]
  have h5 : tickN ⟨0, 5, 24, AnimationState.Playing, LoopMode.Once, 0, 1⟩ 5
      = ⟨4, 5, 24, AnimationState.Finished, LoopMode.Once, 0, 1⟩ := by
    simp [tickN, tick, range_frames_full]
  rw [h5]
  refine ⟨by norm_num, rfl, ?_, ?_⟩ <;>
    simp [step_forward, step_backward, pause, range_frames_full]

/-- C6 amended: with `frame_count > 0`, `step_forward()`/`step_backward()`
pause playback (`Playing` becomes `Stopped`; `Stopped` and `Finished` are left
unchanged) and then move `current_frame` by one position with wraparound at
the range boundaries: forward from at-or-past the range end wraps to the range
start, backward from at-or-before the range start wraps to the range end. -/
theorem C6_step_amended (c : AnimationController) (h : 0 < c.frame_count) :
    step_spec c := by
  have hfc : ¬(c.frame_count = 0) := h.ne'
  have hp := pause_fields c
  have hps : c.state = AnimationState.Playing → c.pause.state = AnimationState.Stopped := by
    intro hs; simp [pause, hs]
  have hpn : c.state ≠ AnimationState.Playing → c.pause.state = c.state := by
    intro hs; simp [pause, hs]
  refine ⟨?_, ?_, ?_, ?_, ?_, ?_⟩ <;>
      simp only [step_spec, step_forward, step_backward, hfc, if_false, hp.1, hp.2.1] <;>
      by_cases hs : c.state = AnimationState.Playing <;>
      split_ifs <;>
      simp_all [hps, hpn]

/-- C6 witness: the amended stepping behavior instantiated at a concrete
stopped controller with ten frames. -/
theorem C6_step_witness :
    0 < (⟨5, 10, 24, AnimationState.Stopped, LoopMode.Loop, 0, 1⟩
        : AnimationController).frame_count
    ∧ step_spec ⟨5, 10, 24, AnimationState.Stopped, LoopMode.Loop, 0, 1⟩ :=
  ⟨by norm_num, C6_step_amended _ (by norm_num)⟩

end Cascii

/-! ## Claims about the binary parser -/

namespace Cascii

lemma range_map_getD (f : ℕ → ℕ) (n i : ℕ) (hi : i < n) :
    ((List.range n).map f).getD i 0 = f i := by
  rw [List.getD_eq_getElem?_getD, List.getElem?_map, List.getElem?_range hi]
  rfl

lemma flatMap_triple_length (f g h : ℕ → ℕ) (n : ℕ) :
    ((List.range n).flatMap (fun t => [f t, g t, h t])).length = 3 * n := by
  induction n with
  | zero => simp
  | succ m ih =>
      rw [List.range_succ, List.flatMap_append]
      simp only [List.length_append, ih]
      simp
      omega

lemma flatMap_triple_getD (f g h : ℕ → ℕ) (n i : ℕ) (hi : i < n) :
    ((List.range n).flatMap (fun t => [f t, g t, h t])).getD (3*i) 0 = f i
    ∧ ((List.range n).flatMap (fun t => [f t, g t, h t])).getD (3*i+1) 0 = g i
    ∧ ((List.range n).flatMap (fun t => [f t, g t, h t])).getD (3*i+2) 0 = h i := by
  induction n with
  | zero => omega
  | succ m ih =>
      rw [List.range_succ, List.flatMap_append]
      rcases Nat.lt_or_ge i m with h1 | h1
      · have hl0 : 3*i < ((List.range m).flatMap (fun t => [f t, g t, h t])).length := by
          rw [flatMap_triple_length]; omega
        have hl1 : 3*i+1 < ((List.range m).flatMap (fun t => [f t, g t, h t])).length := by
          rw [flatMap_triple_length]; omega
        have hl2 : 3*i+2 < ((List.range m).flatMap (fun t => [f t, g t, h t])).length := by
          rw [flatMap_triple_length]; omega
        rw [List.getD_append _ _ _ _ hl0, List.getD_append _ _ _ _ hl1,
          List.getD_append _ _ _ _ hl2]
        exact ih h1
      · have him : i = m := by omega
        subst him
        have hlen : ((List.range i).flatMap (fun t => [f t, g t, h t])).length = 3*i :=
          flatMap_triple_length f g h i
        rw [List.getD_append_right _ _ _ _ (by omega), List.getD_append_right _ _ _ _ (by omega),
          List.getD_append_right _ _ _ _ (by omega), hlen]
        norm_num

lemma getD_take (l : List ℕ) (n i : ℕ) (hi : i < n) (d : ℕ) :
    (l.take n).getD i d = l.getD i d := by
  rw [List.getD_eq_getElem?_getD, List.getD_eq_getElem?_getD, List.getElem?_take_of_lt hi]

lemma leU32_take (l : List ℕ) (n off : ℕ) (hoff : off + 3 < n) :
    leU32 (l.take n) off = leU32 l off := by
  unfold leU32
  rw [getD_take _ _ _ (by omega), getD_take _ _ _ (by omega), getD_take _ _ _ (by omega),
    getD_take _ _ _ (by omega)]

lemma parse_cframe_ok_eq (data : List ℕ) (h8 : ¬(data.length < 8))
    (hwh : ¬(leU32 data 0 = 0 ∨ leU32 data 4 = 0))
    (hsz : ¬(data.length < 8 + leU32 data 0 * leU32 data 4 * 4)) :
    parse_cframe data = Except.ok
      { width := leU32 data 0
        height := leU32 data 4
        chars := (List.range (leU32 data 0 * leU32 data 4)).map
          (fun i => data.getD (8 + i * 4) 0)
        rgb := (List.range (leU32 data 0 * leU32 data 4)).flatMap (fun i =>
          [data.getD (8 + i * 4 + 1) 0, data.getD (8 + i * 4 + 2) 0,
            data.getD (8 + i * 4 + 3) 0]) } := by
  simp [parse_cframe, h8, hwh, hsz]

/-- C2: on any buffer whose little-endian `width` and `height` are positive
and whose length is at least `8 + width*height*4`, `parse_cframe` succeeds
with exactly those dimensions, `chars[i]` equal to byte `8 + 4*i` and the
rgb triple of pixel `i` equal to bytes `8 + 4*i + 1 .. 8 + 4*i + 3`, and
trailing bytes never change the result: the buffer decodes exactly as its
`8 + width*height*4`-byte prefix does. -/
theorem C2_parse_ok (data : List ℕ)
    (hw : 0 < leU32 data 0) (hh : 0 < leU32 data 4)
    (hlen : 8 + leU32 data 0 * leU32 data 4 * 4 ≤ data.length) :
    ∃ cf : CFrameData, parse_cframe data = Except.ok cf
      ∧ cf.width = leU32 data 0 ∧ cf.height = leU32 data 4
      ∧ cf.chars.length = leU32 data 0 * leU32 data 4
      ∧ cf.rgb.length = leU32 data 0 * leU32 data 4 * 3
      ∧ (∀ i, i < leU32 data 0 * leU32 data 4 →
          cf.chars.getD i 0 = data.getD (8 + 4*i) 0
          ∧ cf.rgb.getD (3*i) 0 = data.getD (8 + 4*i + 1) 0
          ∧ cf.rgb.getD (3*i + 1) 0 = data.getD (8 + 4*i + 2) 0
          ∧ cf.rgb.getD (3*i + 2) 0 = data.getD (8 + 4*i + 3) 0)
      ∧ parse_cframe data = parse_cframe (data.take (8 + leU32 data 0 * leU32 data 4 * 4)) := by
  have h8 : ¬(data.length < 8) := by omega
  have hwh : ¬(leU32 data 0 = 0 ∨ leU32 data 4 = 0) := by
    push_neg; exact ⟨hw.ne', hh.ne'⟩
  have hsz : ¬(data.length < 8 + leU32 data 0 * leU32 data 4 * 4) := by omega
  have hparse := parse_cframe_ok_eq data h8 hwh hsz
  refine ⟨_, hparse, rfl, rfl, by simp, ?_, ?_, ?_⟩
  · rw [flatMap_triple_length]; ring
  · intro i hi
    refine ⟨?_, ?_, ?_, ?_⟩
    · rw [range_map_getD _ _ _ hi, Nat.mul_comm]
    · rw [(flatMap_triple_getD _ _ _ _ _ hi).1, Nat.mul_comm]
    · rw [(flatMap_triple_getD _ _ _ _ _ hi).2.1, Nat.mul_comm]
    · rw [(flatMap_triple_getD _ _ _ _ _ hi).2.2, Nat.mul_comm]
  · set E := 8 + leU32 data 0 * leU32 data 4 * 4 with hE
    have htlen : (data.take E).length = E := by
      rw [List.length_take]; omega
    have hw' : leU32 (data.take E) 0 = leU32 data 0 := leU32_take _ _ _ (by omega)
    have hh' : leU32 (data.take E) 4 = leU32 data 4 := leU32_take _ _ _ (by omega)
    have h8' : ¬((data.take E).length < 8) := by omega
    have hsz' : ¬((data.take E).length
        < 8 + leU32 (data.take E) 0 * leU32 (data.take E) 4 * 4) := by
      rw [hw', hh']; omega
    have hwh' : ¬(leU32 (data.take E) 0 = 0 ∨ leU32 (data.take E) 4 = 0) := by
      rw [hw', hh']; exact hwh
    have hparse' := parse_cframe_ok_eq (data.take E) h8' hwh' hsz'
    rw [hparse, hparse']
    congr 1
    refine CFrameData.mk.injEq .. ▸ ?_
    refine ⟨hw'.symm, hh'.symm, ?_, ?_⟩
    · rw [hw', hh']
      refine List.map_congr_left ?_
      intro i hi
      rw [List.mem_range] at hi
      rw [getD_take _ _ _ (by omega)]
    · rw [hw', hh']
      rw [List.flatMap_def, List.flatMap_def]
      refine congrArg List.flatten (List.map_congr_left ?_)
      intro i hi
      rw [List.mem_range] at hi
      rw [getD_take _ _ _ (by omega), getD_take _ _ _ (by omega),
        getD_take _ _ _ (by omega)]

/-- C2 witness: the spec's own example buffer (width 2, height 1, pixels
`('A', red)` and `('B', green)`) instantiates the success theorem. -/
theorem C2_parse_ok_witness :
    0 < leU32 exampleBytes 0 ∧ 0 < leU32 exampleBytes 4
    ∧ 8 + leU32 exampleBytes 0 * leU32 exampleBytes 4 * 4 ≤ exampleBytes.length
    ∧ (∃ cf : CFrameData, parse_cframe exampleBytes = Except.ok cf
      ∧ cf.width = leU32 exampleBytes 0 ∧ cf.height = leU32 exampleBytes 4
      ∧ cf.chars.length = leU32 exampleBytes 0 * leU32 exampleBytes 4
      ∧ cf.rgb.length = leU32 exampleBytes 0 * leU32 exampleBytes 4 * 3
      ∧ (∀ i, i < leU32 exampleBytes 0 * leU32 exampleBytes 4 →
          cf.chars.getD i 0 = exampleBytes.getD (8 + 4*i) 0
          ∧ cf.rgb.getD (3*i) 0 = exampleBytes.getD (8 + 4*i + 1) 0
          ∧ cf.rgb.getD (3*i + 1) 0 = exampleBytes.getD (8 + 4*i + 2) 0
          ∧ cf.rgb.getD (3*i + 2) 0 = exampleBytes.getD (8 + 4*i + 3) 0)
      ∧ parse_cframe exampleBytes
          = parse_cframe (exampleBytes.take
              (8 + leU32 exampleBytes 0 * leU32 exampleBytes 4 * 4))) :=
  ⟨by decide, by decide, by decide,
    C2_parse_ok exampleBytes (by decide) (by decide) (by decide)⟩

/-- C3 counterexample: the validation-order claim quantifies over every byte
buffer, but `expected_size = 8 + pixel_count * 4` is a `usize` computation
that wraps.  On the 8-byte buffer of `0xFF` (width = height = 2^32 - 1) a
64-bit release build returns `SizeMismatch` with the wrapped expected value
`18446744039349813260`, not the claimed exact `8 + width*height*4`
(= 73786976260478468108); debug builds panic on the overflow instead. -/
theorem C3_overflow_counterexample :
    leU32 [255, 255, 255, 255, 255, 255, 255, 255] 0 = 4294967295
    ∧ leU32 [255, 255, 255, 255, 255, 255, 255, 255] 4 = 4294967295
    ∧ parse_cframe_usize 64 [255, 255, 255, 255, 255, 255, 255, 255]
        = Except.error (ParseError.SizeMismatch 18446744039349813260 8)
    ∧ parse_cframe_usize 64 [255, 255, 255, 255, 255, 255, 255, 255]
        ≠ Except.error (ParseError.SizeMismatch
            (8 + leU32 [255, 255, 255, 255, 255, 255, 255, 255] 0
              * leU32 [255, 255, 255, 255, 255, 255, 255, 255] 4 * 4)
            (List.length [255, 255, 255, 255, 255, 255, 255, 255])) :=
  ⟨by decide, by decide, by decide, by decide⟩

/-- C3 amended: on any target with a `bits`-wide `usize` and on every buffer
whose header satisfies `8 + width*height*4 < 2^bits` (so the size
computation does not overflow — true of every genuine frame file),
`parse_cframe` fails with exactly the first applicable error in order:
`FileTooSmall 8 len` when `len < 8`, and otherwise `InvalidDimensions` when
the decoded width or height is zero (these two checks run before any `usize`
size arithmetic and need no restriction); otherwise `SizeMismatch` with the
exact expected size when `len < 8 + width*height*4`; otherwise no error.  On
that same no-overflow domain the wrapping model coincides with the idealized
`parse_cframe`. -/
theorem C3_parse_error_order_amended :
    (∀ (bits : ℕ) (data : List ℕ),
      (data.length < 8 →
        parse_cframe_usize bits data
          = Except.error (ParseError.FileTooSmall 8 data.length))
      ∧ (8 ≤ data.length → (leU32 data 0 = 0 ∨ leU32 data 4 = 0) →
        parse_cframe_usize bits data
          = Except.error (ParseError.InvalidDimensions (leU32 data 0) (leU32 data 4)))
      ∧ (8 ≤ data.length → 0 < leU32 data 0 → 0 < leU32 data 4 →
        8 + leU32 data 0 * leU32 data 4 * 4 < 2 ^ bits →
        data.length < 8 + leU32 data 0 * leU32 data 4 * 4 →
        parse_cframe_usize bits data = Except.error
          (ParseError.SizeMismatch (8 + leU32 data 0 * leU32 data 4 * 4) data.length))
      ∧ (8 ≤ data.length → 0 < leU32 data 0 → 0 < leU32 data 4 →
        8 + leU32 data 0 * leU32 data 4 * 4 < 2 ^ bits →
        8 + leU32 data 0 * leU32 data 4 * 4 ≤ data.length →
        (parse_cframe_usize bits data).isOk = true))
    ∧ (∀ (bits : ℕ) (data : List ℕ),
        8 + leU32 data 0 * leU32 data 4 * 4 < 2 ^ bits →
        parse_cframe_usize bits data = parse_cframe data) := by
  constructor
  · intro bits data
    refine ⟨fun h => ?_, fun h8 hwh => ?_, fun h8 hw hh hov hsz => ?_,
      fun h8 hw hh hov hsz => ?_⟩
    · simp [parse_cframe_usize, h]
    · have h8' : ¬(data.length < 8) := by omega
      simp [parse_cframe_usize, h8', hwh]
    · have h8' : ¬(data.length < 8) := by omega
      have hm0 : leU32 data 0 * leU32 data 4 % 2 ^ bits
          = leU32 data 0 * leU32 data 4 := Nat.mod_eq_of_lt (by omega)
      have hm1 : leU32 data 0 * leU32 data 4 * 4 % 2 ^ bits
          = leU32 data 0 * leU32 data 4 * 4 := Nat.mod_eq_of_lt (by omega)
      have hm2 : (8 + leU32 data 0 * leU32 data 4 * 4) % 2 ^ bits
          = 8 + leU32 data 0 * leU32 data 4 * 4 := Nat.mod_eq_of_lt (by omega)
      simp [parse_cframe_usize, h8', hw.ne', hh.ne', hm0, hm1, hm2, hsz]
    · have h8' : ¬(data.length < 8) := by omega
      have hm0 : leU32 data 0 * leU32 data 4 % 2 ^ bits
          = leU32 data 0 * leU32 data 4 := Nat.mod_eq_of_lt (by omega)
      have hm1 : leU32 data 0 * leU32 data 4 * 4 % 2 ^ bits
          = leU32 data 0 * leU32 data 4 * 4 := Nat.mod_eq_of_lt (by omega)
      have hm2 : (8 + leU32 data 0 * leU32 data 4 * 4) % 2 ^ bits
          = 8 + leU32 data 0 * leU32 data 4 * 4 := Nat.mod_eq_of_lt (by omega)
      have hsz' : ¬(data.length < 8 + leU32 data 0 * leU32 data 4 * 4) := by omega
      simp [parse_cframe_usize, h8', hw.ne', hh.ne', hm0, hm1, hm2, hsz',
        Except.isOk, Except.toBool]
  · intro bits data hov
    by_cases h8 : data.length < 8
    · simp [parse_cframe_usize, parse_cframe, h8]
    · by_cases hwh : leU32 data 0 = 0 ∨ leU32 data 4 = 0
      · simp [parse_cframe_usize, parse_cframe, h8, hwh]
      · have hm0 : leU32 data 0 * leU32 data 4 % 2 ^ bits
            = leU32 data 0 * leU32 data 4 := Nat.mod_eq_of_lt (by omega)
        have hm1 : leU32 data 0 * leU32 data 4 * 4 % 2 ^ bits
            = leU32 data 0 * leU32 data 4 * 4 := Nat.mod_eq_of_lt (by omega)
        have hm2 : (8 + leU32 data 0 * leU32 data 4 * 4) % 2 ^ bits
            = 8 + leU32 data 0 * leU32 data 4 * 4 := Nat.mod_eq_of_lt (by omega)
        simp [parse_cframe_usize, parse_cframe, h8, hwh, hm0, hm1, hm2]

end Cascii

/-! ## Claims about filename indexing and the loader -/

namespace Cascii

/-- C8 counterexample: the stem `"frame_x"` contains no digit characters, yet
`extract_index("frame_x", 99)` returns `0`, not the caller-supplied fallback
`99` — the `"frame_"` branch substitutes `0`, never the fallback. -/
theorem C8_extract_counterexample :
    (∀ c ∈ (['f', 'r', 'a', 'm', 'e', '_', 'x'] : List Char), c.isDigit = false)
    ∧ FrameFile.extract_index ['f', 'r', 'a', 'm', 'e', '_', 'x'] 99 = 0
    ∧ FrameFile.extract_index ['f', 'r', 'a', 'm', 'e', '_', 'x'] 99 ≠ 99 :=
  ⟨by decide, by decide, by decide⟩

/-- C8 amended: when the stem starts with `"frame_"` the whole suffix is
parsed as `u32` with `0` (not the fallback) substituted on failure; otherwise
the digit characters of the stem are gathered and parsed with the fallback on
failure, so the fallback is returned whenever a stem without the prefix has
no digits. -/
theorem C8_extract_amended :
    (∀ (rest : List Char) (fb : ℕ),
      FrameFile.extract_index (FrameFile.frameTag ++ rest) fb = (parseU32 rest).getD 0)
    ∧ (∀ (stem : List Char) (fb : ℕ), stem.take 6 ≠ FrameFile.frameTag →
        FrameFile.extract_index stem fb = (parseU32 (stem.filter Char.isDigit)).getD fb)
    ∧ (∀ (stem : List Char) (fb : ℕ), stem.take 6 ≠ FrameFile.frameTag →
        (∀ c ∈ stem, c.isDigit = false) →
        FrameFile.extract_index stem fb = fb) := by
  refine ⟨?_, ?_, ?_⟩
  · intro rest fb
    have h6 : (FrameFile.frameTag ++ rest).take 6 = FrameFile.frameTag := by
      rw [show (6:ℕ) = FrameFile.frameTag.length from rfl, List.take_left]
    have hdrop : (FrameFile.frameTag ++ rest).drop 6 = rest := by
      rw [show (6:ℕ) = FrameFile.frameTag.length from rfl, List.drop_left]
    rw [FrameFile.extract_index, if_pos h6, hdrop]
  · intro stem fb hne
    rw [FrameFile.extract_index, if_neg hne]
  · intro stem fb hne hnd
    rw [FrameFile.extract_index, if_neg hne]
    have hfil : stem.filter Char.isDigit = [] := by
      rw [List.filter_eq_nil_iff]
      intro c hc
      simp [hnd c hc]
    rw [hfil]
    rfl

lemma toOption_of_not_isOk {e : Type} {a : Type} (x : Except e a) (h : x.isOk = false) :
    x.toOption = none := by
  cases x with
  | error err => rfl
  | ok v => simp [Except.isOk, Except.toBool] at h

lemma load_color_go_subst (total i : ℕ) (pre post : List ColorRead) (bytes : List ℕ)
    (hbad : (parse_cframe bytes).isOk = false) :
    load_color_go total i (pre ++ Except.ok (some bytes) :: post)
      = load_color_go total i (pre ++ Except.ok none :: post) := by
  induction pre generalizing i with
  | nil =>
      simp only [List.nil_append, load_color_go]
      rw [show (some bytes).bind (fun b => (parse_cframe b).toOption) = none by
        simp [toOption_of_not_isOk _ hbad]]
      rfl
  | cons r rest ih =>
      cases r with
      | error e => simp [load_color_go]
      | ok ob =>
          simp only [List.cons_append, load_color_go, List.append_eq]
          rw [ih (i + 1)]

lemma load_color_go_all_ok (total : ℕ) (reads : List ColorRead)
    (h : ∀ r ∈ reads, ∃ ob, r = Except.ok ob) :
    ∀ i, (load_color_go total i reads).2 = Except.ok ()
      ∧ (load_color_go total i reads).1.length = reads.length := by
  induction reads with
  | nil => intro i; simp [load_color_go]
  | cons r rest ih =>
      intro i
      obtain ⟨ob, rfl⟩ := h r (List.mem_cons_self r rest)
      have ih' := ih (fun r hr => h r (List.mem_cons_of_mem _ hr)) (i + 1)
      simp only [load_color_go, List.length_cons]
      exact ⟨ih'.1, by rw [ih'.2]⟩

lemma load_color_go_event_at (total : ℕ) (pre : List ColorRead) (rest : List ColorRead)
    (ob : Option (List ℕ)) (hpre : ∀ r ∈ pre, ∃ b, r = Except.ok b) :
    ∀ i, (load_color_go total i (pre ++ Except.ok ob :: rest)).1.getD pre.length (0, 0, none)
      = (i + pre.length, total, ob.bind (fun bytes => (parse_cframe bytes).toOption)) := by
  induction pre with
  | nil => intro i; simp [load_color_go]
  | cons r prest ih =>
      intro i
      obtain ⟨b, rfl⟩ := hpre r (List.mem_cons_self r prest)
      have ih' := ih (fun r hr => hpre r (List.mem_cons_of_mem _ hr)) (i + 1)
      simp only [List.cons_append, load_color_go, List.length_cons, List.getD_cons_succ,
        List.append_eq]
      rw [ih']
      congr 1
      omega

/-- C9: when the provider read for a frame yields bytes that `parse_cframe`
rejects, `load_color_frames` behaves exactly as if the provider had yielded
no color data for that frame: the whole run (the sequence of `on_frame` calls
and the returned value) is identical, and — when no provider error occurs
elsewhere — the `on_frame` callback receives `none` for that frame, every
file is processed, and the function returns `Ok`. -/
theorem C9_decode_failure_downgraded (pre post : List ColorRead) (bytes : List ℕ)
    (hbad : (parse_cframe bytes).isOk = false) :
    load_color_frames (pre ++ Except.ok (some bytes) :: post)
      = load_color_frames (pre ++ Except.ok none :: post)
    ∧ ((∀ r ∈ pre ++ post, ∃ ob, r = Except.ok ob) →
        (load_color_frames (pre ++ Except.ok (some bytes) :: post)).2 = Except.ok ()
        ∧ ((load_color_frames (pre ++ Except.ok (some bytes) :: post)).1).length
            = (pre ++ Except.ok (some bytes) :: post).length
        ∧ ((load_color_frames (pre ++ Except.ok (some bytes) :: post)).1).getD
              pre.length (0, 0, none)
            = (pre.length, (pre ++ Except.ok (some bytes) :: post).length, none)) := by
  constructor
  · unfold load_color_frames
    rw [load_color_go_subst _ _ _ _ _ hbad]
    congr 1
    simp
  · intro hok
    have hall : ∀ r ∈ pre ++ Except.ok (some bytes) :: post, ∃ ob, r = Except.ok ob := by
      intro r hr
      rcases List.mem_append.mp hr with h1 | h1
      · exact hok r (List.mem_append.mpr (Or.inl h1))
      · rcases List.mem_cons.mp h1 with h2 | h2
        · exact ⟨some bytes, h2⟩
        · exact hok r (List.mem_append.mpr (Or.inr h2))
    have hpre : ∀ r ∈ pre, ∃ b, r = Except.ok b := by
      intro r hr; exact hok r (List.mem_append.mpr (Or.inl hr))
    refine ⟨(load_color_go_all_ok _ _ hall 0).1, (load_color_go_all_ok _ _ hall 0).2, ?_⟩
    have hev := load_color_go_event_at
      (pre ++ Except.ok (some bytes) :: post).length pre post (some bytes) hpre 0
    unfold load_color_frames
    rw [hev]
    simp [toOption_of_not_isOk _ hbad]

/-- C9 witness: a single-frame session whose bytes decode to
`InvalidDimensions` (an all-zero header) is downgraded to a `none` callback
and still returns `Ok`. -/
theorem C9_decode_failure_witness :
    (parse_cframe [0, 0, 0, 0, 0, 0, 0, 0]).isOk = false
    ∧ (load_color_frames ([] ++ Except.ok (some [0, 0, 0, 0, 0, 0, 0, 0]) :: [])
        = load_color_frames ([] ++ Except.ok none :: [])
      ∧ ((∀ r ∈ ([] : List ColorRead) ++ ([] : List ColorRead), ∃ ob, r = Except.ok ob) →
          (load_color_frames ([] ++ Except.ok (some [0, 0, 0, 0, 0, 0, 0, 0]) :: [])).2
            = Except.ok ()
          ∧ ((load_color_frames
                ([] ++ Except.ok (some [0, 0, 0, 0, 0, 0, 0, 0]) :: [])).1).length
              = (([] : List ColorRead) ++ Except.ok (some [0, 0, 0, 0, 0, 0, 0, 0]) :: []).length
          ∧ ((load_color_frames
                ([] ++ Except.ok (some [0, 0, 0, 0, 0, 0, 0, 0]) :: [])).1).getD
                (List.length ([] : List ColorRead)) (0, 0, none)
              = (List.length ([] : List ColorRead),
                  (([] : List ColorRead)
                    ++ Except.ok (some [0, 0, 0, 0, 0, 0, 0, 0]) :: []).length, none))) :=
  ⟨by decide, C9_decode_failure_downgraded [] [] [0, 0, 0, 0, 0, 0, 0, 0] (by decide)⟩

/-- C10: calling `set_frame_color` with an index at or past the end of the
frames list leaves the frames list unchanged, still increments
`color_loaded` by one (leaving `color_total` alone), and — when that makes
`color_loaded` reach a positive `color_total` — moves the phase to
`Complete`. -/
theorem C10_set_color_out_of_range (st : FrameLoaderState) (index : ℕ) (cf : CFrameData)
    (h : st.frames.length ≤ index) :
    (st.set_frame_color index cf).frames = st.frames
    ∧ (st.set_frame_color index cf).progress.color_loaded = st.progress.color_loaded + 1
    ∧ (st.set_frame_color index cf).progress.color_total = st.progress.color_total
    ∧ (0 < st.progress.color_total →
        st.progress.color_total ≤ st.progress.color_loaded + 1 →
        (st.set_frame_color index cf).phase = LoadingPhase.Complete) := by
  have hnot : ¬(index < st.frames.length) := by omega
  refine ⟨by simp [FrameLoaderState.set_frame_color, hnot],
    by simp [FrameLoaderState.set_frame_color],
    by simp [FrameLoaderState.set_frame_color], ?_⟩
  intro h1 h2
  simp [FrameLoaderState.set_frame_color, LoadingProgress.color_complete, h1, h2]

/-- C10 witness: a one-frame state awaiting its only color frame, updated at
the out-of-range index `5`, keeps its frames, bumps the counter and
completes. -/
theorem C10_set_color_witness :
    (FrameLoaderState.mk LoadingPhase.LoadingColors (LoadingProgress.mk 1 1 0 1)
        [Frame.mk "f" none] ["p"] none).frames.length ≤ 5
    ∧ (((FrameLoaderState.mk LoadingPhase.LoadingColors (LoadingProgress.mk 1 1 0 1)
          [Frame.mk "f" none] ["p"] none).set_frame_color 5
            (CFrameData.mk 1 1 [65] [1, 2, 3])).frames
        = (FrameLoaderState.mk LoadingPhase.LoadingColors (LoadingProgress.mk 1 1 0 1)
            [Frame.mk "f" none] ["p"] none).frames
      ∧ ((FrameLoaderState.mk LoadingPhase.LoadingColors (LoadingProgress.mk 1 1 0 1)
          [Frame.mk "f" none] ["p"] none).set_frame_color 5
            (CFrameData.mk 1 1 [65] [1, 2, 3])).progress.color_loaded
        = (FrameLoaderState.mk LoadingPhase.LoadingColors (LoadingProgress.mk 1 1 0 1)
            [Frame.mk "f" none] ["p"] none).progress.color_loaded + 1
      ∧ ((FrameLoaderState.mk LoadingPhase.LoadingColors (LoadingProgress.mk 1 1 0 1)
          [Frame.mk "f" none] ["p"] none).set_frame_color 5
            (CFrameData.mk 1 1 [65] [1, 2, 3])).progress.color_total
        = (FrameLoaderState.mk LoadingPhase.LoadingColors (LoadingProgress.mk 1 1 0 1)
            [Frame.mk "f" none] ["p"] none).progress.color_total
      ∧ (0 < (FrameLoaderState.mk LoadingPhase.LoadingColors (LoadingProgress.mk 1 1 0 1)
            [Frame.mk "f" none] ["p"] none).progress.color_total →
          (FrameLoaderState.mk LoadingPhase.LoadingColors (LoadingProgress.mk 1 1 0 1)
            [Frame.mk "f" none] ["p"] none).progress.color_total
            ≤ (FrameLoaderState.mk LoadingPhase.LoadingColors (LoadingProgress.mk 1 1 0 1)
                [Frame.mk "f" none] ["p"] none).progress.color_loaded + 1 →
          ((FrameLoaderState.mk LoadingPhase.LoadingColors (LoadingProgress.mk 1 1 0 1)
            [Frame.mk "f" none] ["p"] none).set_frame_color 5
              (CFrameData.mk 1 1 [65] [1, 2, 3])).phase = LoadingPhase.Complete)) :=
  ⟨by decide, C10_set_color_out_of_range
    (FrameLoaderState.mk LoadingPhase.LoadingColors (LoadingProgress.mk 1 1 0 1)
      [Frame.mk "f" none] ["p"] none) 5 (CFrameData.mk 1 1 [65] [1, 2, 3]) (by decide)⟩

end Cascii

/-! ## Claims about render batching -/

namespace Cascii

lemma takeWhile_length_le {α : Type} (p : α → Bool) (l : List α) :
    (l.takeWhile p).length ≤ l.length := by
  induction l with
  | nil => simp
  | cons a t ih =>
      rw [List.takeWhile_cons]
      split
      · simpa using ih
      · simp

lemma rowCells_length (cf : CFrameData) (row : ℕ) : (rowCells cf row).length = cf.width := by
  simp [rowCells]

lemma rowCells_drop_cons (cf : CFrameData) (row col : ℕ) (h : col < cf.width) :
    (rowCells cf row).drop col = cellOf cf row col :: (rowCells cf row).drop (col + 1) := by
  rw [List.drop_eq_getElem_cons (by simp [rowCells, h])]
  congr 1
  simp [rowCells]

lemma skipCell_iff (c : Cell) :
    skipCell c = true ↔ (c.ch = 32 ∨ (c.rgb.1 < 5 ∧ c.rgb.2.1 < 5 ∧ c.rgb.2.2 < 5)) := by
  simp [skipCell]
  omega

lemma runPred_iff (c : Cell) (r g b : ℕ) :
    (decide (c.rgb = (r, g, b)) && !skipCell c) = true
      ↔ (c.rgb.1 = r ∧ c.rgb.2.1 = g ∧ c.rgb.2.2 = b ∧ c.ch ≠ 32
          ∧ ¬(c.rgb.1 < 5 ∧ c.rgb.2.1 < 5 ∧ c.rgb.2.2 < 5)) := by
  simp [skipCell, Prod.ext_iff]
  omega

lemma collectRun_eq (cf : CFrameData) (row r g b : ℕ) :
    ∀ n col, cf.width - col = n → col ≤ cf.width →
      collectRun cf row r g b col
        = (((rowCells cf row).drop col).takeWhile
            (fun d => decide (d.rgb = (r, g, b)) && !skipCell d)).map Cell.ch := by
  intro n
  induction n using Nat.strong_induction_on with
  | _ n ih =>
    intro col hn hle
    by_cases h : col < cf.width
    · rw [collectRun, dif_pos h, rowCells_drop_cons cf row col h, List.takeWhile_cons]
      by_cases hc : (cf.rgb.getD ((row * cf.width + col) * 3) 0 = r
          ∧ cf.rgb.getD ((row * cf.width + col) * 3 + 1) 0 = g
          ∧ cf.rgb.getD ((row * cf.width + col) * 3 + 2) 0 = b
          ∧ cf.chars.getD (row * cf.width + col) 0 ≠ 32
          ∧ ¬(cf.rgb.getD ((row * cf.width + col) * 3) 0 < 5
              ∧ cf.rgb.getD ((row * cf.width + col) * 3 + 1) 0 < 5
              ∧ cf.rgb.getD ((row * cf.width + col) * 3 + 2) 0 < 5))
      · rw [if_pos hc, if_pos (by rw [runPred_iff]; simpa [cellOf] using hc)]
        rw [List.map_cons]
        refine congrArg₂ _ (by simp [cellOf]) ?_
        exact ih (cf.width - (col + 1)) (by omega) (col + 1) rfl (by omega)
      · rw [if_neg hc, if_neg (by rw [runPred_iff]; simpa [cellOf] using hc)]
        rfl
    · rw [collectRun, dif_neg h, List.drop_eq_nil_of_le (by rw [rowCells_length]; omega)]
      rfl

lemma scanRow_eq (cf : CFrameData) (cw lh : ℚ) (row : ℕ) :
    ∀ n col, cf.width - col = n → col ≤ cf.width →
      scanRow cf cw lh row col
        = specRow cw lh row ((rowCells cf row).drop col) col := by
  intro n
  induction n using Nat.strong_induction_on with
  | _ n ih =>
    intro col hn hle
    by_cases h : col < cf.width
    · rw [scanRow, dif_pos h, rowCells_drop_cons cf row col h]
      simp only [specRow]
      by_cases hskip : (cf.chars.getD (row * cf.width + col) 0 = 32
          ∨ (cf.rgb.getD ((row * cf.width + col) * 3) 0 < 5
            ∧ cf.rgb.getD ((row * cf.width + col) * 3 + 1) 0 < 5
            ∧ cf.rgb.getD ((row * cf.width + col) * 3 + 2) 0 < 5))
      · rw [if_pos hskip, if_pos (by rw [skipCell_iff]; simpa [cellOf] using hskip)]
        exact ih (cf.width - (col + 1)) (by omega) (col + 1) rfl (by omega)
      · rw [if_neg hskip, if_neg (by rw [skipCell_iff]; simpa [cellOf] using hskip)]
        have hrgb : (cellOf cf row col).rgb
            = (cf.rgb.getD ((row * cf.width + col) * 3) 0,
               cf.rgb.getD ((row * cf.width + col) * 3 + 1) 0,
               cf.rgb.getD ((row * cf.width + col) * 3 + 2) 0) := by simp [cellOf]
        have hch : (cellOf cf row col).ch = cf.chars.getD (row * cf.width + col) 0 := by
          simp [cellOf]
        rw [hrgb, hch]
        rw [collectRun_eq cf row _ _ _ (cf.width - (col + 1)) (col + 1) rfl (by omega)]
        rw [List.length_map]
        have hlen : (((rowCells cf row).drop (col + 1)).takeWhile
            (fun d => decide (d.rgb
              = (cf.rgb.getD ((row * cf.width + col) * 3) 0,
                 cf.rgb.getD ((row * cf.width + col) * 3 + 1) 0,
                 cf.rgb.getD ((row * cf.width + col) * 3 + 2) 0)) && !skipCell d)).length
            ≤ cf.width - (col + 1) := by
          calc (((rowCells cf row).drop (col + 1)).takeWhile _).length
              ≤ ((rowCells cf row).drop (col + 1)).length := takeWhile_length_le _ _
            _ = cf.width - (col + 1) := by rw [List.length_drop, rowCells_length]
        congr 1
        rw [ih _ (by omega) _ rfl (by omega), List.drop_drop]
    · rw [scanRow, dif_neg h,
        List.drop_eq_nil_of_le (by rw [rowCells_length]; omega)]
      simp only [specRow]

lemma exCollect2 :
    collectRun (CFrameData.mk 4 1 [65, 66, 32, 67]
      [255, 0, 0, 255, 0, 0, 0, 0, 0, 0, 255, 0]) 0 255 0 0 2 = [] := by
  rw [collectRun]; norm_num

lemma exCollect1 :
    collectRun (CFrameData.mk 4 1 [65, 66, 32, 67]
      [255, 0, 0, 255, 0, 0, 0, 0, 0, 0, 255, 0]) 0 255 0 0 1 = [66] := by
  rw [collectRun]; norm_num [exCollect2]

lemma exCollect4 :
    collectRun (CFrameData.mk 4 1 [65, 66, 32, 67]
      [255, 0, 0, 255, 0, 0, 0, 0, 0, 0, 255, 0]) 0 0 255 0 4 = [] := by
  rw [collectRun]; norm_num

lemma exScan4 (cw lh : ℚ) :
    scanRow (CFrameData.mk 4 1 [65, 66, 32, 67]
      [255, 0, 0, 255, 0, 0, 0, 0, 0, 0, 255, 0]) cw lh 0 4 = [] := by
  rw [scanRow]; norm_num

lemma exScan3 (cw lh : ℚ) :
    scanRow (CFrameData.mk 4 1 [65, 66, 32, 67]
        [255, 0, 0, 255, 0, 0, 0, 0, 0, 0, 255, 0]) cw lh 0 3
      = [TextBatch.mk [67] (3 * cw) (0 * lh) (0, 255, 0)] := by
  rw [scanRow]; norm_num [exCollect4, exScan4]

lemma exScan2 (cw lh : ℚ) :
    scanRow (CFrameData.mk 4 1 [65, 66, 32, 67]
        [255, 0, 0, 255, 0, 0, 0, 0, 0, 0, 255, 0]) cw lh 0 2
      = [TextBatch.mk [67] (3 * cw) (0 * lh) (0, 255, 0)] := by
  rw [scanRow]; norm_num [exScan3]

lemma exScan0 (cw lh : ℚ) :
    scanRow (CFrameData.mk 4 1 [65, 66, 32, 67]
        [255, 0, 0, 255, 0, 0, 0, 0, 0, 0, 255, 0]) cw lh 0 0
      = [TextBatch.mk [65, 66] (0 * cw) (0 * lh) (255, 0, 0),
        TextBatch.mk [67] (3 * cw) (0 * lh) (0, 255, 0)] := by
  rw [scanRow]; norm_num [exCollect1, exScan2]

lemma exBatches :
    (render_cframe (CFrameData.mk 4 1 [65, 66, 32, 67]
        [255, 0, 0, 255, 0, 0, 0, 0, 0, 0, 255, 0]) (RenderConfig.new 10)).batches
      = [TextBatch.mk [65, 66] 0 0 (255, 0, 0), TextBatch.mk [67] 18 0 (0, 255, 0)] := by
  have h := exScan0 (RenderConfig.new 10).char_width (RenderConfig.new 10).line_height
  simp only [render_cframe]
  rw [show (List.range (1 : ℕ)) = [0] from rfl]
  simp only [List.flatMap_cons, List.flatMap_nil, List.append_nil]
  rw [h]
  norm_num [RenderConfig.new, RenderConfig.char_width, FontSizing.char_width,
    FontSizing.default]

lemma darkScan1 (ch : ℕ) (cw lh : ℚ) :
    scanRow (CFrameData.mk 1 1 [ch] [2, 2, 2]) cw lh 0 1 = [] := by
  rw [scanRow]; norm_num

lemma darkScan0 (ch : ℕ) (cw lh : ℚ) :
    scanRow (CFrameData.mk 1 1 [ch] [2, 2, 2]) cw lh 0 0 = [] := by
  rw [scanRow]; norm_num [darkScan1]

/-- C7: `render_cframe` equals the specification batching: per row, left to
right, skip-worthy cells (space character, or all RGB channels below 5) are
skipped; each batch starts at the first non-skip cell, extends rightward
exactly while each subsequent cell has the identical RGB triple and is itself
not skip-worthy, and is emitted at `x = startCol * charWidth`,
`y = row * lineHeight` with that color; rows are processed independently so
batches never span rows.  In particular the row `A(red) B(red) space
C(green)` yields exactly the two batches `"AB"` red and `"C"` green, and a
cell with RGB `(2, 2, 2)` is always skipped regardless of its character. -/
theorem C7_render_batching :
    (∀ (cf : CFrameData) (config : RenderConfig),
      render_cframe cf config = render_spec cf config)
    ∧ (render_cframe (CFrameData.mk 4 1 [65, 66, 32, 67]
          [255, 0, 0, 255, 0, 0, 0, 0, 0, 0, 255, 0]) (RenderConfig.new 10)).batches
        = [TextBatch.mk [65, 66] 0 0 (255, 0, 0), TextBatch.mk [67] 18 0 (0, 255, 0)]
    ∧ (∀ (ch : ℕ) (config : RenderConfig),
        (render_cframe (CFrameData.mk 1 1 [ch] [2, 2, 2]) config).batches = []) := by
  refine ⟨?_, exBatches, ?_⟩
  · intro cf config
    unfold render_cframe render_spec
    congr 1
    rw [List.flatMap_def, List.flatMap_def]
    refine congrArg List.flatten (List.map_congr_left ?_)
    intro row _
    have h := scanRow_eq cf config.char_width config.line_height row (cf.width - 0) 0 rfl
      (by omega)
    simpa using h
  · intro ch config
    simp only [render_cframe]
    rw [show (List.range (1 : ℕ)) = [0] from rfl]
    simp only [List.flatMap_cons, List.flatMap_nil, List.append_nil]
    exact darkScan0 ch _ _

end Cascii
